import Mathlib

/-!
Verification of the Communication Layer of a robot-control node
(`src/interface/src/communication.rs`), against its natural-language
specification.

Modelling conventions:
* Rust `f64` values are represented by their 64-bit IEEE-754 bit patterns,
  written as natural numbers below `2 ^ 64`; equality of bit patterns models
  the floating-point equality of the spec (the code only ever copies these
  values, never computes with them).
* Rust `String`s are represented by their byte content as a `List Nat`
  (every string this program builds is ASCII, where code points and UTF-8
  bytes coincide).
* Byte buffers are `List Nat` with each entry below 256 in well-formed
  streams.
* The external CDR binary serialization used through the `cdr` crate (whose
  source is not part of this repository) is modelled from the spec's
  external-interface section: little-endian primitives aligned to their
  size, length-prefixed strings with a trailing NUL byte, length-prefixed
  sequences, alignment relative to the start of the body.
-/

namespace RobotDev

/-- The fixed ROS 2 CDR encapsulation header accepted and emitted by the
communication layer (`ROS2_CDR_HEADER_LE` in `communication.rs`):
bytes `0x00 0x01 0x00 0x00`. -/
def ROS2_CDR_HEADER_LE : List Nat := [0x00, 0x01, 0x00, 0x00]

/-- Internal joint state (`kinematics::JointState`): one articulated joint.
The three Rust `f64` fields are modelled by their 64-bit bit patterns. -/
structure KinematicsJointState where
  angle : Nat
  velocity : Nat
  effort : Nat
deriving Repr, DecidableEq

/-- Wire joint-state message (struct `JointState` in `communication.rs`),
with the ROS `std_msgs::Header` flattened: timestamp seconds (`i32`),
timestamp nanoseconds (`u32`), frame identifier, then the parallel arrays
`name`, `position`, `velocity`, `effort`. -/
structure JointState where
  sec : Int
  nanosec : Nat
  frame_id : List Nat
  name : List (List Nat)
  position : List Nat
  velocity : List Nat
  effort : List Nat
deriving Repr, DecidableEq

/-- The failure cases of `deserialize_ros_payload`. The Rust code reports
them as strings: `payloadTooShort` is "Payload too short for ROS 2 CDR
header", `headerMismatch` is "Invalid ROS 2 CDR header", and `bodyDecode`
is any error propagated from the CDR deserializer. -/
inductive DecodeError where
  | payloadTooShort
  | headerMismatch
  | bodyDecode
deriving Repr, DecidableEq

/-- Little-endian value of a byte list. -/
def leToNat : List Nat → Nat
  | [] => 0
  | b :: bs => b + 256 * leToNat bs

/-- The `w` little-endian bytes of `n` (its low `8 * w` bits). -/
def natToLE : Nat → Nat → List Nat
  | 0, _ => []
  | w + 1, n => n % 256 :: natToLE w (n / 256)

/-- Number of padding bytes needed to advance `pos` to a multiple of
`align`. -/
def padOf (align pos : Nat) : Nat := (align - pos % align) % align

/-- The CDR alignment padding emitted at position `pos` before a value of
alignment `align` (zero bytes). -/
def padBytes (align pos : Nat) : List Nat := List.replicate (padOf align pos) 0

/-- Read `n` bytes from the stream, advancing the deserializer position;
fails when the stream is too short. -/
def readBytes (n pos : Nat) (s : List Nat) : Option (List Nat × Nat × List Nat) :=
  if n ≤ s.length then some (s.take n, pos + n, s.drop n) else none

/-- Consume the alignment padding the CDR deserializer skips before a value
of alignment `align`; fails when the stream ends inside the padding. -/
def skipPad (align pos : Nat) (s : List Nat) : Option (Nat × List Nat) :=
  if padOf align pos ≤ s.length then
    some (pos + padOf align pos, s.drop (padOf align pos))
  else none

/-- Reinterpret a value below `2 ^ 32` as a two's-complement `i32`. -/
def toSigned32 (n : Nat) : Int :=
  if n < 2 ^ 31 then (n : Int) else (n : Int) - 2 ^ 32

/-- Modelled from the spec: the external CDR deserialization of a `u32`
(4-byte alignment, 4 little-endian bytes). -/
def parseU32 (pos : Nat) (s : List Nat) : Option (Nat × Nat × List Nat) := do
  let (pos, s) ← skipPad 4 pos s
  let (bs, pos, s) ← readBytes 4 pos s
  some (leToNat bs, pos, s)

/-- Modelled from the spec: the external CDR deserialization of an `i32`. -/
def parseI32 (pos : Nat) (s : List Nat) : Option (Int × Nat × List Nat) := do
  let (n, pos, s) ← parseU32 pos s
  some (toSigned32 n, pos, s)

/-- Modelled from the spec: the external CDR deserialization of an `f64`
(8-byte alignment, 8 little-endian bytes); the value is its bit pattern. -/
def parseF64 (pos : Nat) (s : List Nat) : Option (Nat × Nat × List Nat) := do
  let (pos, s) ← skipPad 8 pos s
  let (bs, pos, s) ← readBytes 8 pos s
  some (leToNat bs, pos, s)

/-- Modelled from the spec: the external CDR deserialization of a `u8`. -/
def parseU8 (pos : Nat) (s : List Nat) : Option (Nat × Nat × List Nat) := do
  let (bs, pos, s) ← readBytes 1 pos s
  some (leToNat bs, pos, s)

/-- Modelled from the spec: the external CDR deserialization of a string:
a `u32` length counting the trailing NUL byte, then that many bytes, of
which the last (the NUL) is dropped. -/
def parseString (pos : Nat) (s : List Nat) : Option (List Nat × Nat × List Nat) := do
  let (len, pos, s) ← parseU32 pos s
  let (bs, pos, s) ← readBytes len pos s
  some (bs.take (len - 1), pos, s)

/-- Run an element deserializer a fixed number of times. -/
def parseMany (q : Nat → List Nat → Option (α × Nat × List Nat)) :
    Nat → Nat → List Nat → Option (List α × Nat × List Nat)
  | 0, pos, s => some ([], pos, s)
  | c + 1, pos, s => do
    let (a, pos, s) ← q pos s
    let (as, pos, s) ← parseMany q c pos s
    some (a :: as, pos, s)

/-- Modelled from the spec: the external CDR deserialization of a sequence:
a `u32` element count, then that many elements. -/
def parseSeqOf (q : Nat → List Nat → Option (α × Nat × List Nat))
    (pos : Nat) (s : List Nat) : Option (List α × Nat × List Nat) := do
  let (c, pos, s) ← parseU32 pos s
  parseMany q c pos s

/-- Modelled from the spec: the external CDR little-endian deserialization
of the joint-state schema (the `cdr` crate deserializer instantiated at
`JointState`, whose source is not in this repository): header fields, then
the four length-prefixed arrays, in declaration order. -/
def parseJointState (pos : Nat) (s : List Nat) :
    Option (JointState × Nat × List Nat) := do
  let (sec, pos, s) ← parseI32 pos s
  let (nanosec, pos, s) ← parseU32 pos s
  let (frame_id, pos, s) ← parseString pos s
  let (name, pos, s) ← parseSeqOf parseString pos s
  let (position, pos, s) ← parseSeqOf parseF64 pos s
  let (velocity, pos, s) ← parseSeqOf parseF64 pos s
  let (effort, pos, s) ← parseSeqOf parseF64 pos s
  some (⟨sec, nanosec, frame_id, name, position, velocity, effort⟩, pos, s)

/-- Function `deserialize_ros_payload` from `communication.rs`, generic in the CDR
body deserializer exactly as the Rust function is generic in `T`: reject
payloads shorter than 4 bytes, reject a first-4-byte prefix different from
the little-endian encapsulation header, then deserialize the remaining
bytes from position 0 (trailing bytes are ignored, as in the source). -/
def deserialize_ros_payload (parseBody : Nat → List Nat → Option (α × Nat × List Nat))
    (payload : List Nat) : Except DecodeError α :=
  if payload.length < 4 then .error .payloadTooShort
  else if payload.take 4 ≠ ROS2_CDR_HEADER_LE then .error .headerMismatch
  else
    match parseBody 0 (payload.drop 4) with
    | some (a, _, _) => .ok a
    | none => .error .bodyDecode

/-- Instantiation `deserialize_ros_payload::<JointState>`: the decode used by the
joint-state subscription. -/
def decodeJointState (payload : List Nat) : Except DecodeError JointState :=
  deserialize_ros_payload parseJointState payload

/-- Function `convert_from_ros_joint_state` from `communication.rs`: one internal
joint per index of `position`; `velocity` and `effort` are read at the same
index when within bounds and default to `0.0` (bit pattern 0) otherwise. -/
def convert_from_ros_joint_state (msg : JointState) : List KinematicsJointState :=
  (List.range msg.position.length).map fun i =>
    { angle := msg.position.getD i 0
      velocity := if i < msg.velocity.length then msg.velocity.getD i 0 else 0
      effort := if i < msg.effort.length then msg.effort.getD i 0 else 0 }

/-- The code points of an ASCII string literal: the byte content of the
corresponding Rust `String`. -/
def strBytes (s : String) : List Nat := s.data.map Char.toNat

/-- Decimal digits of `n`, least significant first, with explicit fuel
(structural recursion on the fuel; `n` itself is always enough fuel). -/
def decDigitsRevAux : Nat → Nat → List Nat
  | 0, _ => []
  | fuel + 1, n => if n = 0 then [] else n % 10 :: decDigitsRevAux fuel (n / 10)

/-- The ASCII bytes of the decimal rendering of `n`, as produced by Rust
`format!` (48 is the code of the zero digit). -/
def decBytes (n : Nat) : List Nat :=
  if n = 0 then [48] else ((decDigitsRevAux n n).map fun d => 48 + d).reverse

/-- The wire name of the joint at 1-based index `n`:
`format!("joint_{}", n)`. -/
def jointName (n : Nat) : List Nat := strBytes "joint_" ++ decBytes n

/-- The wall-clock instant read by `convert_to_ros_joint_state`
(`SystemTime::now().duration_since(UNIX_EPOCH)`): whole seconds and the
subsecond nanoseconds (a `u32` in Rust, hence below `2 ^ 32`). -/
structure TimeSpec where
  secs : Nat
  nanos : Nat

/-- The Rust cast `as i32` applied to a `u64` second count: keep the low
32 bits and reinterpret them as two's complement. -/
def toInt32 (n : Nat) : Int := toSigned32 (n % 2 ^ 32)

/-- Function `convert_to_ros_joint_state` from `communication.rs`: stamp from the
current time, frame identifier `"robot_base"`, `name[i] = "joint_{i+1}"`,
and the three float arrays copied index-aligned from the joints. -/
def convert_to_ros_joint_state (now : TimeSpec) (joints : List KinematicsJointState) :
    JointState :=
  { sec := toInt32 now.secs
    nanosec := now.nanos
    frame_id := strBytes "robot_base"
    name := (List.range joints.length).map fun i => jointName (i + 1)
    position := joints.map (·.angle)
    velocity := joints.map (·.velocity)
    effort := joints.map (·.effort) }

/-- Modelled from the spec: the external CDR serialization of a `u32` at
position `pos` (alignment padding, then 4 little-endian bytes). -/
def serU32 (n pos : Nat) : List Nat := padBytes 4 pos ++ natToLE 4 n

/-- Modelled from the spec: the external CDR serialization of an `i32`
(its two's-complement 32-bit pattern, little-endian). -/
def serI32 (v : Int) (pos : Nat) : List Nat := serU32 (v % 2 ^ 32).toNat pos

/-- Modelled from the spec: the external CDR serialization of an `f64`
bit pattern (alignment padding, then 8 little-endian bytes). -/
def serF64 (bits pos : Nat) : List Nat := padBytes 8 pos ++ natToLE 8 bits

/-- Modelled from the spec: the external CDR serialization of a string:
`u32` length counting a trailing NUL, the bytes, the NUL. -/
def serString (bs : List Nat) (pos : Nat) : List Nat :=
  serU32 (bs.length + 1) pos ++ (bs ++ [0])

/-- Serialize each element in turn, threading the stream position. -/
def serList (f : α → Nat → List Nat) : List α → Nat → List Nat
  | [], _ => []
  | x :: xs, pos => f x pos ++ serList f xs (pos + (f x pos).length)

/-- Modelled from the spec: the external CDR serialization of a sequence:
`u32` element count, then the elements. -/
def serSeqOf (f : α → Nat → List Nat) (xs : List α) (pos : Nat) : List Nat :=
  serU32 xs.length pos ++ serList f xs (pos + (serU32 xs.length pos).length)

/-- Modelled from the spec: the external CDR little-endian serialization of
the joint-state message body (`cdr::serialize` with `CdrLe`, whose source
is not in this repository), fields in declaration order, positions counted
from the start of the body. -/
def serJointState (m : JointState) : List Nat :=
  let b1 := serI32 m.sec 0
  let p1 := b1.length
  let b2 := serU32 m.nanosec p1
  let p2 := p1 + b2.length
  let b3 := serString m.frame_id p2
  let p3 := p2 + b3.length
  let b4 := serSeqOf serString m.name p3
  let p4 := p3 + b4.length
  let b5 := serSeqOf serF64 m.position p4
  let p5 := p4 + b5.length
  let b6 := serSeqOf serF64 m.velocity p5
  let p6 := p5 + b6.length
  let b7 := serSeqOf serF64 m.effort p6
  b1 ++ (b2 ++ (b3 ++ (b4 ++ (b5 ++ (b6 ++ b7)))))

/-- The byte sequence `publish_joint_command` hands to the transport for a
given wire message: the 4-byte little-endian encapsulation header, then the
serialized body. -/
def encode_payload (m : JointState) : List Nat :=
  ROS2_CDR_HEADER_LE ++ serJointState m

/-- The full payload `publish_joint_command` publishes for an internal
joint sequence at a given instant. -/
def publish_joint_command_payload (now : TimeSpec)
    (joints : List KinematicsJointState) : List Nat :=
  encode_payload (convert_to_ros_joint_state now joints)

/-- Modelled from the spec: the externally-defined camera image message
(`sensor_msgs::Image`), with the header flattened: stamp, frame identifier,
height, width, encoding, big-endian flag, row stride, pixel data. -/
structure ImageMsg where
  sec : Int
  nanosec : Nat
  frame_id : List Nat
  height : Nat
  width : Nat
  encoding : List Nat
  is_bigendian : Nat
  imstep : Nat
  data : List Nat
deriving Repr, DecidableEq

/-- Modelled from the spec: the external CDR deserialization of the image
schema, fields in declaration order. -/
def parseImage (pos : Nat) (s : List Nat) : Option (ImageMsg × Nat × List Nat) := do
  let (sec, pos, s) ← parseI32 pos s
  let (nanosec, pos, s) ← parseU32 pos s
  let (frame_id, pos, s) ← parseString pos s
  let (height, pos, s) ← parseU32 pos s
  let (width, pos, s) ← parseU32 pos s
  let (encoding, pos, s) ← parseString pos s
  let (isbig, pos, s) ← parseU8 pos s
  let (imstep, pos, s) ← parseU32 pos s
  let (data, pos, s) ← parseSeqOf parseU8 pos s
  some (⟨sec, nanosec, frame_id, height, width, encoding, isbig, imstep, data⟩, pos, s)

/-- Instantiation `deserialize_ros_payload::<Image>`: the decode used by the camera
subscription. -/
def decodeImage (payload : List Nat) : Except DecodeError ImageMsg :=
  deserialize_ros_payload parseImage payload

/-- One observation of a subscription's receive loop: either
`recv_async` yields a sample with the given payload bytes, or the channel
is closed (the `Err` that ends the `while let`). -/
inductive SubEvent where
  | message (payload : List Nat)
  | channelClosed
deriving Repr, DecidableEq

/-- The state of one subscription task: waiting on `recv_async`, or the
spawned task has returned (the only terminal state). -/
inductive SubState where
  | awaitingMessage
  | terminated
deriving Repr, DecidableEq

/-- One turn of the receive loop spawned by `subscribe_joint_state`: on a
received payload, decode; on success convert and invoke the callback (the
emitted output); on failure report the error and stay in the loop; when
the channel closes, leave the loop. A terminated task processes nothing. -/
def joint_state_loop_step (s : SubState) (e : SubEvent) :
    SubState × Option (List KinematicsJointState) :=
  match s, e with
  | .terminated, _ => (.terminated, none)
  | .awaitingMessage, .channelClosed => (.terminated, none)
  | .awaitingMessage, .message p =>
    match decodeJointState p with
    | .ok msg => (.awaitingMessage, some (convert_from_ros_joint_state msg))
    | .error _ => (.awaitingMessage, none)

/-- The joint-state receive loop run over a finite prefix of channel
events, collecting the callback invocations in order. -/
def joint_state_loop_run : SubState → List SubEvent →
    SubState × List (List KinematicsJointState)
  | s, [] => (s, [])
  | s, e :: es =>
    let step := joint_state_loop_step s e
    let rest := joint_state_loop_run step.1 es
    (rest.1, step.2.toList ++ rest.2)

/-- One turn of the receive loop spawned by `subscribe_camera_image`:
identical control flow, decoding an image and passing it through. -/
def camera_image_loop_step (s : SubState) (e : SubEvent) :
    SubState × Option ImageMsg :=
  match s, e with
  | .terminated, _ => (.terminated, none)
  | .awaitingMessage, .channelClosed => (.terminated, none)
  | .awaitingMessage, .message p =>
    match decodeImage p with
    | .ok msg => (.awaitingMessage, some msg)
    | .error _ => (.awaitingMessage, none)

/-- The camera-image receive loop run over a finite prefix of channel
events. -/
def camera_image_loop_run : SubState → List SubEvent → SubState × List ImageMsg
  | s, [] => (s, [])
  | s, e :: es =>
    let step := camera_image_loop_step s e
    let rest := camera_image_loop_run step.1 es
    (rest.1, step.2.toList ++ rest.2)

/-- An event of the two-subscription system: something happens on the
joint-state topic's channel or on the camera topic's channel. The two
spawned tasks share no mutable state, so an interleaved run is a pair of
independent loop runs. -/
inductive SysEvent where
  | joint (e : SubEvent)
  | camera (e : SubEvent)
deriving Repr, DecidableEq

/-- The joint-topic projection of an interleaved event sequence. -/
def jointEvents (es : List SysEvent) : List SubEvent :=
  es.filterMap fun e =>
    match e with
    | .joint e => some e
    | .camera _ => none

/-- The camera-topic projection of an interleaved event sequence. -/
def cameraEvents (es : List SysEvent) : List SubEvent :=
  es.filterMap fun e =>
    match e with
    | .joint _ => none
    | .camera e => some e

/-- Both subscription tasks run over one interleaved schedule of channel
events: each event drives only its own topic's loop. Returns the pair of
final task states and the two callback traces. -/
def system_run : SubState × SubState → List SysEvent →
    (SubState × SubState) × (List (List KinematicsJointState) × List ImageMsg)
  | st, [] => (st, ([], []))
  | st, .joint e :: es =>
    let step := joint_state_loop_step st.1 e
    let rest := system_run (step.1, st.2) es
    (rest.1, (step.2.toList ++ rest.2.1, rest.2.2))
  | st, .camera e :: es =>
    let step := camera_image_loop_step st.2 e
    let rest := system_run (st.1, step.1) es
    (rest.1, (rest.2.1, step.2.toList ++ rest.2.2))

/-- The serialized `w`-byte little-endian form has exactly `w` bytes. -/
theorem length_natToLE (w : Nat) : ∀ n, (natToLE w n).length = w := by
  induction w with
  | zero => intro n; rfl
  | succ w ih => intro n; simp [natToLE, ih]

/-- Reading back `w` little-endian bytes recovers a value below `256 ^ w`. -/
theorem leToNat_natToLE (w : Nat) : ∀ n, n < 256 ^ w → leToNat (natToLE w n) = n := by
  induction w with
  | zero =>
    intro n h
    simp [Nat.pow_zero] at h
    simp [natToLE, leToNat, h]
  | succ w ih =>
    intro n h
    have hdiv : n / 256 < 256 ^ w := by
      rw [Nat.div_lt_iff_lt_mul (by norm_num)]
      calc n < 256 ^ (w + 1) := h
        _ = 256 ^ w * 256 := by rw [Nat.pow_succ]
    simp [natToLE, leToNat, ih (n / 256) hdiv]
    omega

/-- Alignment padding has exactly `padOf align pos` bytes. -/
theorem length_padBytes (a p : Nat) : (padBytes a p).length = padOf a p := by
  simp [padBytes]

/-- Skipping padding over the padding the serializer emitted lands on the
following bytes. -/
theorem skipPad_padBytes (a p : Nat) (rest : List Nat) :
    skipPad a p (padBytes a p ++ rest) = some (p + padOf a p, rest) := by
  unfold skipPad
  rw [if_pos (by simp [length_padBytes])]
  rw [List.drop_left' (length_padBytes a p)]

/-- Reading exactly the bytes that were written returns them and leaves the
tail untouched. -/
theorem readBytes_append (n p : Nat) (bs rest : List Nat) (h : bs.length = n) :
    readBytes n p (bs ++ rest) = some (bs, p + n, rest) := by
  unfold readBytes
  rw [if_pos (by simp; omega)]
  rw [List.take_left' h, List.drop_left' h]

/-- Round trip of the CDR `u32` encoding at any position. -/
theorem parseU32_serU32 (n p : Nat) (rest : List Nat) (h : n < 2 ^ 32) :
    parseU32 p (serU32 n p ++ rest) = some (n, p + (serU32 n p).length, rest) := by
  have h256 : n < 256 ^ 4 := by
    have : (256 : Nat) ^ 4 = 2 ^ 32 := by norm_num
    omega
  simp only [parseU32, serU32, List.append_assoc, skipPad_padBytes, Option.bind_eq_bind,
    Option.some_bind]
  rw [readBytes_append 4 _ _ _ (length_natToLE 4 n)]
  simp [leToNat_natToLE 4 n h256, length_padBytes, length_natToLE, Nat.add_assoc]

/-- Round trip of the CDR `i32` encoding for values in `i32` range. -/
theorem parseI32_serI32 (v : Int) (p : Nat) (rest : List Nat)
    (h1 : -(2 ^ 31) ≤ v) (h2 : v < 2 ^ 31) :
    parseI32 p (serI32 v p ++ rest) = some (v, p + (serI32 v p).length, rest) := by
  have hm : (v % 2 ^ 32).toNat < 2 ^ 32 := by omega
  simp only [parseI32, serI32, Option.bind_eq_bind]
  rw [parseU32_serU32 _ _ _ hm]
  simp only [Option.some_bind]
  have hv : toSigned32 (v % 2 ^ 32).toNat = v := by
    unfold toSigned32
    split <;> omega
  rw [hv]

/-- Round trip of the CDR `f64` encoding (of bit patterns below `2 ^ 64`)
at any position. -/
theorem parseF64_serF64 (bits p : Nat) (rest : List Nat) (h : bits < 2 ^ 64) :
    parseF64 p (serF64 bits p ++ rest) = some (bits, p + (serF64 bits p).length, rest) := by
  have h256 : bits < 256 ^ 8 := by
    have : (256 : Nat) ^ 8 = 2 ^ 64 := by norm_num
    omega
  simp only [parseF64, serF64, List.append_assoc, skipPad_padBytes, Option.bind_eq_bind,
    Option.some_bind]
  rw [readBytes_append 8 _ _ _ (length_natToLE 8 bits)]
  simp [leToNat_natToLE 8 bits h256, length_padBytes, length_natToLE, Nat.add_assoc]

/-- Round trip of the CDR string encoding: the length prefix counts the
trailing NUL, which the reader strips again. -/
theorem parseString_serString (bs : List Nat) (p : Nat) (rest : List Nat)
    (h : bs.length + 1 < 2 ^ 32) :
    parseString p (serString bs p ++ rest)
      = some (bs, p + (serString bs p).length, rest) := by
  simp only [parseString, serString, List.append_assoc, Option.bind_eq_bind]
  rw [parseU32_serU32 _ _ _ h]
  simp only [Option.some_bind]
  rw [← List.append_assoc bs [0] rest,
    readBytes_append (bs.length + 1) _ (bs ++ [0]) rest (by simp)]
  simp only [Option.some_bind, Nat.add_sub_cancel]
  rw [List.take_left' (rfl : bs.length = bs.length)]
  simp [Nat.add_assoc]

/-- Round trip of a fixed-count run of elements, given the element round
trip for every element that satisfies its well-formedness condition. -/
theorem parseMany_serList {α : Type} (q : Nat → List Nat → Option (α × Nat × List Nat))
    (f : α → Nat → List Nat) (P : α → Prop)
    (hrt : ∀ a p rest, P a → q p (f a p ++ rest) = some (a, p + (f a p).length, rest))
    (xs : List α) (hxs : ∀ a ∈ xs, P a) :
    ∀ (p : Nat) (rest : List Nat),
      parseMany q xs.length p (serList f xs p ++ rest)
        = some (xs, p + (serList f xs p).length, rest) := by
  induction xs with
  | nil => intro p rest; simp [parseMany, serList]
  | cons x xs ih =>
    intro p rest
    simp only [List.length_cons, parseMany, serList, List.append_assoc,
      Option.bind_eq_bind]
    rw [hrt x p _ (hxs x (List.mem_cons_self _ _))]
    simp only [Option.some_bind]
    rw [ih (fun a ha => hxs a (List.mem_cons_of_mem _ ha)) _ _]
    simp [Nat.add_assoc]

/-- Round trip of the CDR sequence encoding: count prefix, then the
elements. -/
theorem parseSeqOf_serSeqOf {α : Type} (q : Nat → List Nat → Option (α × Nat × List Nat))
    (f : α → Nat → List Nat) (P : α → Prop)
    (hrt : ∀ a p rest, P a → q p (f a p ++ rest) = some (a, p + (f a p).length, rest))
    (xs : List α) (hxs : ∀ a ∈ xs, P a) (hc : xs.length < 2 ^ 32)
    (p : Nat) (rest : List Nat) :
    parseSeqOf q p (serSeqOf f xs p ++ rest)
      = some (xs, p + (serSeqOf f xs p).length, rest) := by
  simp only [parseSeqOf, serSeqOf, List.append_assoc, Option.bind_eq_bind]
  rw [parseU32_serU32 _ _ _ hc]
  simp only [Option.some_bind]
  rw [parseMany_serList q f P hrt xs hxs _ _]
  simp [Nat.add_assoc]

/-- Round trip of the whole joint-state body: parsing the serialized body
from position 0 returns the message and consumes exactly the body. -/
theorem parseJointState_serJointState (m : JointState) (rest : List Nat)
    (hsec1 : -(2 ^ 31) ≤ m.sec) (hsec2 : m.sec < 2 ^ 31)
    (hnan : m.nanosec < 2 ^ 32)
    (hfid : m.frame_id.length + 1 < 2 ^ 32)
    (hname : ∀ s ∈ m.name, s.length + 1 < 2 ^ 32)
    (hnlen : m.name.length < 2 ^ 32)
    (hpv : ∀ b ∈ m.position, b < 2 ^ 64) (hplen : m.position.length < 2 ^ 32)
    (hvv : ∀ b ∈ m.velocity, b < 2 ^ 64) (hvlen : m.velocity.length < 2 ^ 32)
    (hev : ∀ b ∈ m.effort, b < 2 ^ 64) (helen : m.effort.length < 2 ^ 32) :
    parseJointState 0 (serJointState m ++ rest)
      = some (m, (serJointState m).length, rest) := by
  simp only [parseJointState, serJointState, List.append_assoc, Option.bind_eq_bind]
  rw [parseI32_serI32 _ _ _ hsec1 hsec2]
  simp only [Option.some_bind, Nat.zero_add]
  rw [parseU32_serU32 _ _ _ hnan]
  simp only [Option.some_bind]
  rw [parseString_serString _ _ _ hfid]
  simp only [Option.some_bind]
  rw [parseSeqOf_serSeqOf parseString serString (fun bs => bs.length + 1 < 2 ^ 32)
    (fun a p r ha => parseString_serString a p r ha) m.name hname hnlen]
  simp only [Option.some_bind]
  rw [parseSeqOf_serSeqOf parseF64 serF64 (fun b => b < 2 ^ 64)
    (fun a p r ha => parseF64_serF64 a p r ha) m.position hpv hplen]
  simp only [Option.some_bind]
  rw [parseSeqOf_serSeqOf parseF64 serF64 (fun b => b < 2 ^ 64)
    (fun a p r ha => parseF64_serF64 a p r ha) m.velocity hvv hvlen]
  simp only [Option.some_bind]
  rw [parseSeqOf_serSeqOf parseF64 serF64 (fun b => b < 2 ^ 64)
    (fun a p r ha => parseF64_serF64 a p r ha) m.effort hev helen]
  simp [List.length_append, Nat.add_assoc]

/-- Decoding an encoded payload: the header prepended by
`publish_joint_command` passes the checks and the body parses back to the
message. -/
theorem decode_encode_payload (m : JointState)
    (hsec1 : -(2 ^ 31) ≤ m.sec) (hsec2 : m.sec < 2 ^ 31)
    (hnan : m.nanosec < 2 ^ 32)
    (hfid : m.frame_id.length + 1 < 2 ^ 32)
    (hname : ∀ s ∈ m.name, s.length + 1 < 2 ^ 32)
    (hnlen : m.name.length < 2 ^ 32)
    (hpv : ∀ b ∈ m.position, b < 2 ^ 64) (hplen : m.position.length < 2 ^ 32)
    (hvv : ∀ b ∈ m.velocity, b < 2 ^ 64) (hvlen : m.velocity.length < 2 ^ 32)
    (hev : ∀ b ∈ m.effort, b < 2 ^ 64) (helen : m.effort.length < 2 ^ 32) :
    decodeJointState (encode_payload m) = .ok m := by
  unfold decodeJointState deserialize_ros_payload encode_payload
  have ht : (ROS2_CDR_HEADER_LE ++ serJointState m).take 4 = ROS2_CDR_HEADER_LE := rfl
  have hd : (ROS2_CDR_HEADER_LE ++ serJointState m).drop 4 = serJointState m := rfl
  rw [if_neg (by simp [ROS2_CDR_HEADER_LE]), if_neg (by rw [ht]; simp), hd]
  have hp := parseJointState_serJointState m [] hsec1 hsec2 hnan hfid hname hnlen
    hpv hplen hvv hvlen hev helen
  rw [List.append_nil] at hp
  rw [hp]

/-- Values of `toInt32` always land in the `i32` range: lower bound. -/
theorem toInt32_lb (n : Nat) : -(2 ^ 31) ≤ toInt32 n := by
  unfold toInt32 toSigned32
  have h : n % 2 ^ 32 < 2 ^ 32 := Nat.mod_lt _ (by norm_num)
  split <;> omega

/-- Values of `toInt32` always land in the `i32` range: upper bound. -/
theorem toInt32_ub (n : Nat) : toInt32 n < 2 ^ 31 := by
  unfold toInt32 toSigned32
  have h : n % 2 ^ 32 < 2 ^ 32 := Nat.mod_lt _ (by norm_num)
  split <;> omega

/-- A number below `10 ^ k` has at most `k` decimal digits. -/
theorem decDigitsRevAux_length_le (fuel : Nat) :
    ∀ n k, n < 10 ^ k → (decDigitsRevAux fuel n).length ≤ k := by
  induction fuel with
  | zero => intro n k _; simp [decDigitsRevAux]
  | succ fuel ih =>
    intro n k h
    unfold decDigitsRevAux
    split
    · simp
    · rename_i hn
      cases k with
      | zero =>
        rw [Nat.pow_zero] at h
        omega
      | succ k =>
        have hdiv : n / 10 < 10 ^ k := by
          rw [Nat.div_lt_iff_lt_mul (by norm_num)]
          calc n < 10 ^ (k + 1) := h
            _ = 10 ^ k * 10 := by rw [Nat.pow_succ]
        simpa using Nat.succ_le_succ (ih (n / 10) k hdiv)

/-- The decimal rendering of a number below `10 ^ k` (for `k ≥ 1`) has at
most `k` bytes. -/
theorem decBytes_length_le (n k : Nat) (hk : 1 ≤ k) (h : n < 10 ^ k) :
    (decBytes n).length ≤ k := by
  unfold decBytes
  split
  · simpa using hk
  · simpa using decDigitsRevAux_length_le n n k h

/-- The wire joint name for a small index is short. -/
theorem jointName_length_le (n k : Nat) (hk : 1 ≤ k) (h : n < 10 ^ k) :
    (jointName n).length ≤ 6 + k := by
  have hd := decBytes_length_le n k hk h
  have h6 : (strBytes "joint_").length = 6 := rfl
  simp only [jointName, List.length_append, h6]
  omega

/-- Converting an internal sequence to the wire form and back reconstructs
the sequence exactly: every wire array has the same length as the input, so
no leniency defaults are ever used. -/
theorem convert_from_convert_to (now : TimeSpec)
    (joints : List KinematicsJointState) :
    convert_from_ros_joint_state (convert_to_ros_joint_state now joints) = joints := by
  apply List.ext_getElem
  · simp [convert_from_ros_joint_state, convert_to_ros_joint_state]
  · intro i h1 h2
    have hj : joints[i]? = some joints[i] := List.getElem?_eq_getElem h2
    simp [convert_from_ros_joint_state, convert_to_ros_joint_state,
      List.getD_eq_getElem?_getD, List.getElem?_map, hj, h2]

/-- C2: every payload of length at least 4 whose first 4 bytes differ from
the little-endian encapsulation header is rejected with `HeaderMismatch`;
no other header value is ever accepted. -/
theorem claim_C2_header_rejection (payload : List Nat) (h4 : 4 ≤ payload.length)
    (hh : payload.take 4 ≠ ROS2_CDR_HEADER_LE) :
    decodeJointState payload = .error .headerMismatch := by
  unfold decodeJointState deserialize_ros_payload
  rw [if_neg (by omega), if_pos hh]

/-- C2 witness: the big-endian header variant followed by two body bytes,
`[0x00,0x00,0x00,0x00,0x01,0x02]`, fails with `HeaderMismatch`. -/
theorem claim_C2_header_rejection_witness :
    decodeJointState [0x00, 0x00, 0x00, 0x00, 0x01, 0x02] = .error .headerMismatch :=
  claim_C2_header_rejection [0x00, 0x00, 0x00, 0x00, 0x01, 0x02] (by decide) (by decide)

/-- C3: decoding fails with `PayloadTooShort` exactly when the payload has
fewer than 4 bytes; in particular no payload of length at least 4 ever
produces `PayloadTooShort`. -/
theorem claim_C3_short_payload_rejection (payload : List Nat) :
    decodeJointState payload = .error .payloadTooShort ↔ payload.length < 4 := by
  unfold decodeJointState deserialize_ros_payload
  by_cases h : payload.length < 4
  · simp [h]
  · rw [if_neg h]
    by_cases hh : payload.take 4 ≠ ROS2_CDR_HEADER_LE
    · simp [hh, h]
    · rw [if_neg hh]
      cases hp : parseJointState 0 (payload.drop 4) with
      | none => simp [h]
      | some v => simp [h]

/-- C10: the 4-byte payload consisting of exactly the encapsulation header
passes the length and header checks and fails decoding the empty body with
a body-decode error, not `PayloadTooShort` or `HeaderMismatch`. -/
theorem claim_C10_header_only_payload :
    decodeJointState [0x00, 0x01, 0x00, 0x00] = .error .bodyDecode := by rfl

/-- C8: decode is a pure function of the payload bytes: two runs on equal
inputs give equal results, success or failure alike. -/
theorem claim_C8_decode_deterministic (b₁ b₂ : List Nat) (h : b₁ = b₂) :
    decodeJointState b₁ = decodeJointState b₂ := by rw [h]

/-- C8 witness: decoding one concrete valid byte sequence twice yields two
structurally equal messages (and that sequence indeed decodes
successfully). -/
theorem claim_C8_decode_deterministic_witness :
    decodeJointState (encode_payload ⟨0, 0, [], [], [], [], []⟩)
      = decodeJointState (encode_payload ⟨0, 0, [], [], [], [], []⟩) ∧
    decodeJointState (encode_payload ⟨0, 0, [], [], [], [], []⟩)
      = .ok ⟨0, 0, [], [], [], [], []⟩ :=
  ⟨claim_C8_decode_deterministic _ _ rfl, by rfl⟩

/-- C4: converting a wire message produces one internal joint per index of
`position`, with angle copied from `position` and velocity/effort read at
the same index when present and defaulting to the zero bit pattern (`0.0`)
otherwise; the conversion is total, hence never errors. -/
theorem claim_C4_convert_from_leniency (msg : JointState) (i : Nat)
    (h : i < msg.position.length) :
    (convert_from_ros_joint_state msg).length = msg.position.length ∧
    (convert_from_ros_joint_state msg).getD i ⟨0, 0, 0⟩ =
      { angle := msg.position.getD i 0
        velocity := if i < msg.velocity.length then msg.velocity.getD i 0 else 0
        effort := if i < msg.effort.length then msg.effort.getD i 0 else 0 } := by
  refine ⟨by simp [convert_from_ros_joint_state], ?_⟩
  simp [convert_from_ros_joint_state, List.getD_eq_getElem?_getD, List.getElem?_map,
    List.getElem?_range, h]

/-- C4 witness: `position = [1.0, 2.0]`, `velocity = [0.5]`, `effort = []`
(as bit patterns) converts to `{angle 1.0, velocity 0.5, effort 0.0}` and
`{angle 2.0, velocity 0.0, effort 0.0}`. -/
theorem claim_C4_convert_from_leniency_witness :
    (convert_from_ros_joint_state
      ⟨0, 0, [], [], [0x3FF0000000000000, 0x4000000000000000],
        [0x3FE0000000000000], []⟩).getD 0 ⟨0, 0, 0⟩
      = ⟨0x3FF0000000000000, 0x3FE0000000000000, 0⟩ ∧
    (convert_from_ros_joint_state
      ⟨0, 0, [], [], [0x3FF0000000000000, 0x4000000000000000],
        [0x3FE0000000000000], []⟩).getD 1 ⟨0, 0, 0⟩
      = ⟨0x4000000000000000, 0, 0⟩ ∧
    convert_from_ros_joint_state
      ⟨0, 0, [], [], [0x3FF0000000000000, 0x4000000000000000],
        [0x3FE0000000000000], []⟩
      = [⟨0x3FF0000000000000, 0x3FE0000000000000, 0⟩, ⟨0x4000000000000000, 0, 0⟩] := by
  refine ⟨?_, ?_, by rfl⟩
  · exact (claim_C4_convert_from_leniency
      ⟨0, 0, [], [], [0x3FF0000000000000, 0x4000000000000000],
        [0x3FE0000000000000], []⟩ 0 (by decide)).2.trans (by rfl)
  · exact (claim_C4_convert_from_leniency
      ⟨0, 0, [], [], [0x3FF0000000000000, 0x4000000000000000],
        [0x3FE0000000000000], []⟩ 1 (by decide)).2.trans (by rfl)

/-- C5: the wire message built for publishing has `name[i] = "joint_{i+1}"`
for every index, the three float arrays copied index-aligned from the
joints, and the fixed frame identifier `"robot_base"`. -/
theorem claim_C5_convert_to_determinism (now : TimeSpec)
    (joints : List KinematicsJointState) (i : Nat) (h : i < joints.length) :
    (convert_to_ros_joint_state now joints).frame_id = strBytes "robot_base" ∧
    (convert_to_ros_joint_state now joints).name.length = joints.length ∧
    (convert_to_ros_joint_state now joints).position.length = joints.length ∧
    (convert_to_ros_joint_state now joints).name.getD i [] = jointName (i + 1) ∧
    (convert_to_ros_joint_state now joints).position.getD i 0
      = (joints.getD i ⟨0, 0, 0⟩).angle ∧
    (convert_to_ros_joint_state now joints).velocity.getD i 0
      = (joints.getD i ⟨0, 0, 0⟩).velocity ∧
    (convert_to_ros_joint_state now joints).effort.getD i 0
      = (joints.getD i ⟨0, 0, 0⟩).effort := by
  have hj : joints[i]? = some joints[i] := List.getElem?_eq_getElem h
  refine ⟨rfl, by simp [convert_to_ros_joint_state],
    by simp [convert_to_ros_joint_state], ?_, ?_, ?_, ?_⟩ <;>
    simp [convert_to_ros_joint_state, List.getD_eq_getElem?_getD, List.getElem?_map,
      List.getElem?_range, h, hj]

/-- C5 witness: a one-joint sequence yields `name[0] = "joint_1"` and
`position[0]` equal to the joint's angle. -/
theorem claim_C5_convert_to_determinism_witness :
    (convert_to_ros_joint_state ⟨3, 4⟩ [⟨10, 11, 12⟩]).name.getD 0 []
      = jointName 1 ∧
    (convert_to_ros_joint_state ⟨3, 4⟩ [⟨10, 11, 12⟩]).position.getD 0 0 = 10 := by
  have h := claim_C5_convert_to_determinism ⟨3, 4⟩ [⟨10, 11, 12⟩] 0 (by decide)
  exact ⟨h.2.2.2.1, h.2.2.2.2.1.trans (by rfl)⟩

/-- Auxiliary invariant for the joint-state receive loop: a run ends in the
terminal state only if it started there or the channel closed. -/
theorem joint_state_loop_run_terminated_cases (s : SubState) (es : List SubEvent)
    (h : (joint_state_loop_run s es).1 = .terminated) :
    s = .terminated ∨ SubEvent.channelClosed ∈ es := by
  induction es generalizing s with
  | nil =>
    simp only [joint_state_loop_run] at h
    exact .inl h
  | cons e es ih =>
    simp only [joint_state_loop_run] at h
    rcases ih _ h with h1 | h2
    · cases s with
      | terminated => exact .inl rfl
      | awaitingMessage =>
        cases e with
        | channelClosed => exact .inr (List.mem_cons_self _ _)
        | message p =>
          exfalso
          cases hd : decodeJointState p <;> simp [joint_state_loop_step, hd] at h1
    · exact .inr (List.mem_cons_of_mem _ h2)

/-- C7: a received payload never terminates the subscription — after any
message, decoded or failed, the loop is awaiting the next message; the
loop's step reaches `terminated` only on a closed channel, and a whole run
ends `terminated` only if the channel closed. -/
theorem claim_C7_subscription_resilience :
    (∀ p, (joint_state_loop_step .awaitingMessage (.message p)).1
      = .awaitingMessage) ∧
    (∀ s e, (joint_state_loop_step s e).1 = .terminated →
      s = .terminated ∨ e = .channelClosed) ∧
    (∀ es, (joint_state_loop_run .awaitingMessage es).1 = .terminated →
      SubEvent.channelClosed ∈ es) := by
  refine ⟨?_, ?_, ?_⟩
  · intro p
    cases hd : decodeJointState p <;> simp [joint_state_loop_step, hd]
  · intro s e hse
    cases s with
    | terminated => exact .inl rfl
    | awaitingMessage =>
      cases e with
      | channelClosed => exact .inr rfl
      | message p =>
        exfalso
        cases hd : decodeJointState p <;> simp [joint_state_loop_step, hd] at hse
  · intro es h
    rcases joint_state_loop_run_terminated_cases _ _ h with h1 | h2
    · exact absurd h1 (by simp)
    · exact h2

/-- C7 witness: a malformed (empty) payload leaves the loop awaiting the
next message, and a run that did terminate contains a channel-close
event. -/
theorem claim_C7_subscription_resilience_witness :
    (joint_state_loop_step .awaitingMessage (.message [])).1 = .awaitingMessage ∧
    SubEvent.channelClosed ∈ [SubEvent.channelClosed] :=
  ⟨claim_C7_subscription_resilience.1 [],
   claim_C7_subscription_resilience.2.2 [SubEvent.channelClosed] (by rfl)⟩

/-- C1: encoding an internal joint sequence to the wire message, wrapping
it in the encapsulation header, decoding it and converting back yields a
sequence of the same length whose angle, velocity, and effort bit patterns
(hence floating-point values) equal the originals. The hypotheses record
machine limits already implied by the Rust types: fewer than `2 ^ 32`
joints (the CDR sequence count is a `u32`), subsecond nanoseconds a `u32`,
and every float a 64-bit pattern. -/
theorem claim_C1_roundtrip (now : TimeSpec) (joints : List KinematicsJointState)
    (hN : joints.length < 2 ^ 32) (hnan : now.nanos < 2 ^ 32)
    (hbits : ∀ j ∈ joints,
      j.angle < 2 ^ 64 ∧ j.velocity < 2 ^ 64 ∧ j.effort < 2 ^ 64) :
    decodeJointState (publish_joint_command_payload now joints)
      = .ok (convert_to_ros_joint_state now joints) ∧
    convert_from_ros_joint_state (convert_to_ros_joint_state now joints)
      = joints := by
  refine ⟨?_, convert_from_convert_to now joints⟩
  unfold publish_joint_command_payload
  have hpow : (2 : Nat) ^ 32 < 10 ^ 10 := by norm_num
  apply decode_encode_payload
  · exact toInt32_lb now.secs
  · exact toInt32_ub now.secs
  · exact hnan
  · show (strBytes "robot_base").length + 1 < 2 ^ 32
    decide
  · intro s hs
    have hs' : s ∈ (List.range joints.length).map fun i => jointName (i + 1) := hs
    obtain ⟨i, hi, rfl⟩ := List.mem_map.mp hs'
    have hi' : i < joints.length := List.mem_range.mp hi
    have hlt : i + 1 < 10 ^ 10 := by omega
    have := jointName_length_le (i + 1) 10 (by norm_num) hlt
    omega
  · show ((List.range joints.length).map fun i => jointName (i + 1)).length < 2 ^ 32
    simpa using hN
  · intro b hb
    have hb' : b ∈ joints.map (·.angle) := hb
    obtain ⟨j, hj, rfl⟩ := List.mem_map.mp hb'
    exact (hbits j hj).1
  · show (joints.map (·.angle)).length < 2 ^ 32
    simpa using hN
  · intro b hb
    have hb' : b ∈ joints.map (·.velocity) := hb
    obtain ⟨j, hj, rfl⟩ := List.mem_map.mp hb'
    exact (hbits j hj).2.1
  · show (joints.map (·.velocity)).length < 2 ^ 32
    simpa using hN
  · intro b hb
    have hb' : b ∈ joints.map (·.effort) := hb
    obtain ⟨j, hj, rfl⟩ := List.mem_map.mp hb'
    exact (hbits j hj).2.2
  · show (joints.map (·.effort)).length < 2 ^ 32
    simpa using hN

/-- C1 witness: one joint with angle `1.0` (bit pattern
`0x3FF0000000000000`), zero velocity, effort pattern 5, at a concrete
instant, survives the encode/decode/convert round trip. -/
theorem claim_C1_roundtrip_witness :
    decodeJointState (publish_joint_command_payload ⟨1, 2⟩
        [⟨0x3FF0000000000000, 0, 5⟩])
      = .ok (convert_to_ros_joint_state ⟨1, 2⟩ [⟨0x3FF0000000000000, 0, 5⟩]) ∧
    convert_from_ros_joint_state
        (convert_to_ros_joint_state ⟨1, 2⟩ [⟨0x3FF0000000000000, 0, 5⟩])
      = [⟨0x3FF0000000000000, 0, 5⟩] :=
  claim_C1_roundtrip ⟨1, 2⟩ [⟨0x3FF0000000000000, 0, 5⟩]
    (by decide) (by decide) (by decide)

/-- C6: the payload built for publishing is exactly the 4-byte
little-endian encapsulation header `0x00 0x01 0x00 0x00` immediately
followed by the little-endian serialization of the message body; in
particular the first 4 bytes of every published payload equal that
constant. -/
theorem claim_C6_encode_layout (now : TimeSpec)
    (joints : List KinematicsJointState) (m : JointState) :
    publish_joint_command_payload now joints
      = [0x00, 0x01, 0x00, 0x00]
          ++ serJointState (convert_to_ros_joint_state now joints) ∧
    (encode_payload m).take 4 = ROS2_CDR_HEADER_LE ∧
    (encode_payload m).drop 4 = serJointState m :=
  ⟨rfl, rfl, rfl⟩

/-- C9: over any interleaved schedule of channel events, each topic's
callback trace equals the trace of that topic's loop run on its own events
alone — camera decode failures cannot prevent or alter joint-state
processing, and conversely; the spawned tasks share no mutable state. -/
theorem claim_C9_topic_independence (st : SubState × SubState)
    (es : List SysEvent) :
    (system_run st es).2.1 = (joint_state_loop_run st.1 (jointEvents es)).2 ∧
    (system_run st es).2.2 = (camera_image_loop_run st.2 (cameraEvents es)).2 := by
  induction es generalizing st with
  | nil => exact ⟨rfl, rfl⟩
  | cons e es ih =>
    cases e with
    | joint e =>
      have h := ih ((joint_state_loop_step st.1 e).1, st.2)
      refine ⟨?_, ?_⟩ <;>
        simp only [system_run, jointEvents, cameraEvents, List.filterMap_cons,
          joint_state_loop_run] <;>
        simp_all [jointEvents, cameraEvents]
    | camera e =>
      have h := ih (st.1, (camera_image_loop_step st.2 e).1)
      refine ⟨?_, ?_⟩ <;>
        simp only [system_run, jointEvents, cameraEvents, List.filterMap_cons,
          camera_image_loop_run] <;>
        simp_all [jointEvents, cameraEvents]

end RobotDev

